import Mathlib

/-!
Verification of the rdm-integration synchronization engine
====

A shallow embedding, in Lean 4, of the core of the `rdm-integration`
synchronization engine (Go sources under `image/app/utils`), together with
theorems settling the specification's claims about it.

Conventions of the embedding:
* Go strings are Lean `String`s; where character-level reasoning is needed
  (`strings.Split`), the embedding works on `List Char`.
* Go maps are association lists `List (String × α)`; Go map iteration order
  is unspecified, so theorems never depend on list order beyond what the
  code itself guarantees.
* External effects (the Dataverse REST API, file/S3 storage, Redis) are
  passed in explicitly: either as state records threaded through the
  functions, or as oracle functions giving the outcome of each external
  call.  Fallible operations return `Except String α` mirroring Go's
  `(α, error)` results.
* Cryptographic digests are represented symbolically: a hash accumulator
  remembers the exact byte sequence fed to it, and `Sum` wraps that
  sequence in a constructor naming the algorithm (`Digest.sha1 msg` is
  "SHA-1 of msg").  All claims concern which bytes are hashed, never the
  compression function itself.
-/

namespace RdmIntegration

/-! Section: Association list helpers (Go `map` operations) -/

/-- Lookup in an association list, mirroring Go `m[k]` (with `ok`). -/
def alookup {α : Type} (m : List (String × α)) (k : String) : Option α :=
  match m with
  | [] => none
  | (k', v) :: rest => if k' = k then some v else alookup rest k

/-- Go `m[k] = v`: replace the binding if present, else append. -/
def ainsert {α : Type} (m : List (String × α)) (k : String) (v : α) :
    List (String × α) :=
  match m with
  | [] => [(k, v)]
  | (k', v') :: rest =>
      if k' = k then (k, v) :: rest else (k', v') :: ainsert rest k v

/-- Go `delete(m, k)`: remove the binding for `k` if present. -/
def aerase {α : Type} (m : List (String × α)) (k : String) :
    List (String × α) :=
  match m with
  | [] => []
  | (k', v') :: rest =>
      if k' = k then rest else (k', v') :: aerase rest k

theorem alookup_ainsert_self {α : Type} (m : List (String × α)) (k : String)
    (v : α) : alookup (ainsert m k v) k = some v := by
  induction m with
  | nil => simp [ainsert, alookup]
  | cons hd tl ih =>
      simp only [ainsert]
      split
      · simp [alookup]
      · rename_i hne
        simp only [alookup]
        rw [if_neg hne]
        exact ih

theorem aerase_length_le {α : Type} (m : List (String × α)) (k : String) :
    (aerase m k).length ≤ m.length := by
  induction m with
  | nil => simp [aerase]
  | cons hd tl ih =>
      simp only [aerase]
      split
      · simp
      · simpa using Nat.succ_le_succ ih

theorem aerase_length_lt {α : Type} (m : List (String × α)) (k : String)
    (h : (alookup m k).isSome) : (aerase m k).length < m.length := by
  induction m with
  | nil => simp [alookup] at h
  | cons hd tl ih =>
      simp only [aerase, alookup] at *
      split
      · simp
      · rename_i hne
        rw [if_neg hne] at h
        simpa using Nat.succ_lt_succ (ih h)

/-! Section: `trimProtocol` (utils, storage layer)

Source (Go):
```
func trimProtocol(persistentId string) (string, error) {
    s := strings.Split(persistentId, ":")
    if len(s) < 2 {
        return "", fmt.Errorf("expected at least two parts of persistentId: ...")
    }
    return strings.Join(s[1:], ":"), nil
}
```
-/

/-- Go `strings.Split(l, [c])` on character lists: always returns at least
one (possibly empty) part. -/
def splitOnChar (c : Char) : List Char → List (List Char)
  | [] => [[]]
  | x :: xs =>
      if x = c then [] :: splitOnChar c xs
      else
        match splitOnChar c xs with
        | [] => [[x]]
        | y :: ys => (x :: y) :: ys

/-- Helper for `joinWithChar`: the separator-prefixed tail parts. -/
def joinTail (c : Char) : List (List Char) → List Char
  | [] => []
  | p :: ps => c :: p ++ joinTail c ps

/-- Go `strings.Join(parts, [c])`. -/
def joinWithChar (c : Char) : List (List Char) → List Char
  | [] => []
  | p :: ps => p ++ joinTail c ps

/-- The `trimProtocol` from the storage layer: split the persistent id on `:`;
fewer than two parts is an error, otherwise re-join everything after the
first part. -/
def trimProtocol (persistentId : List Char) : Except String (List Char) :=
  let s := splitOnChar ':' persistentId
  if s.length < 2 then
    Except.error "expected at least two parts of persistentId: protocol and remainder"
  else
    Except.ok (joinWithChar ':' s.tail)

theorem splitOnChar_ne_nil (c : Char) (l : List Char) :
    splitOnChar c l ≠ [] := by
  induction l with
  | nil => simp [splitOnChar]
  | cons x xs ih =>
      simp only [splitOnChar]
      split
      · simp
      · split
        · simp
        · simp

theorem joinTail_eq (c : Char) (r : List (List Char)) (h : r ≠ []) :
    joinTail c r = c :: joinWithChar c r := by
  cases r with
  | nil => exact absurd rfl h
  | cons y ys => simp [joinTail, joinWithChar]

theorem join_split (c : Char) (l : List Char) :
    joinWithChar c (splitOnChar c l) = l := by
  induction l with
  | nil => simp [splitOnChar, joinWithChar, joinTail]
  | cons x xs ih =>
      simp only [splitOnChar]
      split
      · rename_i hx
        subst hx
        simp only [joinWithChar, List.nil_append]
        rw [joinTail_eq _ _ (splitOnChar_ne_nil _ _), ih]
      · rename_i hx
        cases h : splitOnChar c xs with
        | nil => exact absurd h (splitOnChar_ne_nil c xs)
        | cons y ys =>
            rw [h] at ih
            simp only [h]
            simp only [joinWithChar, List.cons_append] at ih ⊢
            rw [ih]

theorem splitOnChar_not_mem (c : Char) (l : List Char) (h : c ∉ l) :
    splitOnChar c l = [l] := by
  induction l with
  | nil => simp [splitOnChar]
  | cons x xs ih =>
      simp only [List.mem_cons, not_or] at h
      simp only [splitOnChar]
      rw [if_neg (fun hh => h.1 hh.symm), ih h.2]

theorem splitOnChar_append (c : Char) (pre rest : List Char) (h : c ∉ pre) :
    splitOnChar c (pre ++ c :: rest) = pre :: splitOnChar c rest := by
  induction pre with
  | nil => simp [splitOnChar]
  | cons x xs ih =>
      simp only [List.mem_cons, not_or] at h
      simp only [List.cons_append, splitOnChar]
      rw [if_neg (fun hh => h.1 hh.symm)]
      simp only [List.append_eq] at ih ⊢
      simp only [ih h.2]

/-- Spec-side description of `trimProtocol`: fewer than two `:`-separated
parts means no `:` at all, and the result is the suffix after the first
`:`.  Used only to state claim C8. -/
def afterFirstColon (l : List Char) : Option (List Char) :=
  if ':' ∈ l then some ((l.dropWhile (· ≠ ':')).tail) else none

theorem not_colon_mem_takeWhile (l : List Char) :
    ':' ∉ l.takeWhile (· ≠ ':') := by
  intro h
  have := List.mem_takeWhile_imp h
  simp at this

theorem colon_decomp (l : List Char) (hmem : ':' ∈ l) :
    l = l.takeWhile (· ≠ ':') ++ ':' :: (l.dropWhile (· ≠ ':')).tail := by
  induction l with
  | nil => simp at hmem
  | cons x xs ih =>
      by_cases hx : x = ':'
      · subst hx
        simp [List.takeWhile_cons, List.dropWhile_cons]
      · have hmem' : ':' ∈ xs := by
          rcases List.mem_cons.mp hmem with h1 | h1
          · exact absurd h1.symm hx
          · exact h1
        simp only [List.takeWhile_cons, List.dropWhile_cons]
        rw [if_pos (by simp [Ne.symm, hx] : decide (x ≠ ':') = true),
          if_pos (by simp [Ne.symm, hx] : decide (x ≠ ':') = true)]
        simpa using ih hmem'

theorem trimProtocol_no_colon (l : List Char) (h : ':' ∉ l) :
    trimProtocol l =
      Except.error "expected at least two parts of persistentId: protocol and remainder" := by
  unfold trimProtocol
  rw [splitOnChar_not_mem ':' l h]
  simp

theorem trimProtocol_with_colon (pre rest : List Char) (h : ':' ∉ pre) :
    trimProtocol (pre ++ ':' :: rest) = Except.ok rest := by
  unfold trimProtocol
  rw [splitOnChar_append ':' pre rest h]
  have hlen : 2 ≤ (pre :: splitOnChar ':' rest).length := by
    cases hs : splitOnChar ':' rest with
    | nil => exact absurd hs (splitOnChar_ne_nil ':' rest)
    | cons y ys => simp
  rw [if_neg (by omega)]
  simp [join_split]

/-- C8: `trimProtocol` returns the substring after the first `:` with
any further `:` characters preserved, and fails with the
malformed-persistent-id error exactly when the input has no `:` at all
(fewer than two `:`-separated parts). -/
theorem C8_trimProtocol_law :
    (∀ pre rest : List Char, ':' ∉ pre →
        trimProtocol (pre ++ ':' :: rest) = Except.ok rest) ∧
    (∀ l : List Char, ':' ∉ l →
        trimProtocol l =
          Except.error "expected at least two parts of persistentId: protocol and remainder") ∧
    (∀ l rest : List Char, afterFirstColon l = some rest →
        trimProtocol l = Except.ok rest) :=
  ⟨trimProtocol_with_colon, trimProtocol_no_colon, by
    intro l rest hafc
    unfold afterFirstColon at hafc
    split at hafc
    · rename_i hmem
      obtain rfl : (l.dropWhile (· ≠ ':')).tail = rest := by injection hafc
      calc trimProtocol l
          = trimProtocol (l.takeWhile (· ≠ ':') ++ ':' :: (l.dropWhile (· ≠ ':')).tail) := by
            rw [← colon_decomp l hmem]
        _ = Except.ok ((l.dropWhile (· ≠ ':')).tail) :=
            trimProtocol_with_colon _ _ (not_colon_mem_takeWhile l)
    · exact absurd hafc (by simp)⟩

/-- Witness for C8 at the spec's own examples: `trim("a:b:c") = "b:c"` and
`trim("x")` is the malformed-persistent-id error. -/
theorem C8_trimProtocol_law_witness :
    trimProtocol (['a'] ++ ':' :: ['b', ':', 'c']) = Except.ok ['b', ':', 'c'] ∧
    trimProtocol ['x'] =
      Except.error "expected at least two parts of persistentId: protocol and remainder" :=
  ⟨C8_trimProtocol_law.1 ['a'] ['b', ':', 'c'] (by decide),
   C8_trimProtocol_law.2.1 ['x'] (by decide)⟩

/-! Section: Hash accumulators (`getHash`, `hashingReader`; spec §4.1)

Source (Go), storage layer:
```
func getHash(hashType string, fileSize int64) (hasher hash.Hash, err error) {
    if hashType == types.Md5 { hasher = md5.New()
    } else if hashType == types.SHA1 { hasher = sha1.New()
    } else if hashType == types.GitHash {
        hasher = sha1.New()
        hasher.Write([]byte(fmt.Sprintf("blob %d\x00", fileSize)))
    } else if hashType == types.FileSize { hasher = &FileSizeHash{FileSize: 0}
    } else { err = fmt.Errorf("unsupported hash type: %v", hashType) }
    return
}
```
A hash accumulator is modelled symbolically: it remembers the algorithm and
the exact byte sequence written to it; `Sum` names the algorithm applied to
that sequence.  Bytes are `Nat`s (values of Go `byte`).
-/

/-- Modelled from the spec: the hash-kind constants of package
`integration/app/plugin/types` (not under `src/`); the spec names the kinds
`md5`, `sha1`, `gitHash`, `fileSize`. -/
def Md5 : String := "md5"

/-- Modelled from the spec: see `Md5`. -/
def SHA1 : String := "sha1"

/-- Modelled from the spec: see `Md5`. -/
def GitHash : String := "gitHash"

/-- Modelled from the spec: see `Md5`. -/
def FileSize : String := "fileSize"

/-- State of one running hash accumulator: the algorithm plus the bytes fed
so far (`FileSizeHash` only counts them; the spec calls it a 64-bit counter,
byte counts stay far below `2^63` so plain `Nat` is used). -/
inductive HashState where
  | md5acc (msg : List Nat)
  | sha1acc (msg : List Nat)
  | sizeacc (n : Nat)
  deriving DecidableEq, Repr

/-- The `hasher.Write(c)`. -/
def hashWrite : HashState → List Nat → HashState
  | .md5acc msg, c => .md5acc (msg ++ c)
  | .sha1acc msg, c => .sha1acc (msg ++ c)
  | .sizeacc n, c => .sizeacc (n + c.length)

/-- A finished digest, symbolically: the algorithm applied to the exact
message bytes. -/
inductive Digest where
  | md5 (msg : List Nat)
  | sha1 (msg : List Nat)
  | count (n : Nat)
  deriving DecidableEq, Repr

/-- The `hasher.Sum(nil)`. -/
def hashSum : HashState → Digest
  | .md5acc msg => .md5 msg
  | .sha1acc msg => .sha1 msg
  | .sizeacc n => .count n

/-- The `sizeHasher.FileSize`. -/
def hashSize : HashState → Nat
  | .sizeacc n => n
  | _ => 0

/-- Byte values of an ASCII string (Go `[]byte(s)`). -/
def asciiBytes (s : String) : List Nat := s.data.map Char.toNat

/-- Bytes of Go `fmt.Sprintf("blob %d\x00", fileSize)`: the literal
`blob `, the decimal digits of the size, and a zero byte. -/
def gitBlobHeader (fileSize : Nat) : List Nat :=
  asciiBytes "blob " ++ asciiBytes (toString fileSize) ++ [0]

/-- The `getHash` of the storage layer. -/
def getHash (hashType : String) (fileSize : Nat) : Except String HashState :=
  if hashType = Md5 then Except.ok (.md5acc [])
  else if hashType = SHA1 then Except.ok (.sha1acc [])
  else if hashType = GitHash then Except.ok (.sha1acc (gitBlobHeader fileSize))
  else if hashType = FileSize then Except.ok (.sizeacc 0)
  else Except.error ("unsupported hash type: " ++ hashType)

theorem hashWrite_nil (h : HashState) : hashWrite h [] = h := by
  cases h <;> simp [hashWrite]

theorem hashWrite_append (h : HashState) (a b : List Nat) :
    hashWrite (hashWrite h a) b = hashWrite h (a ++ b) := by
  cases h <;> simp [hashWrite, Nat.add_assoc]

/-- C7: The `gitHash` accumulator, created for size `n` and fed a byte
sequence `B` of that very length, produces SHA-1 of
`"blob " ++ decimal(n) ++ "\x00" ++ B`. -/
theorem C7_gitHash_law (B : List Nat) :
    (getHash GitHash B.length).map (fun st => hashSum (hashWrite st B)) =
      Except.ok
        (Digest.sha1 (asciiBytes "blob " ++ asciiBytes (toString B.length) ++ 0 :: B)) := by
  simp [getHash, GitHash, Md5, SHA1, gitBlobHeader, hashWrite, hashSum, Except.map,
    List.append_assoc]

/-! Section: The hashing stream and the streaming writer (`write`; spec §4.1, §4.2)

Source (Go):
```
type hashingReader struct { reader io.Reader; hasher hash.Hash }
func (r hashingReader) Read(buf []byte) (n int, err error) {
    n, err = r.reader.Read(buf)
    r.hasher.Write(buf[:n])
    return
}
```
A reader is a byte-chunk source wrapped in zero or more hashing layers.
`io.Copy` repeatedly `Read`s until EOF; the loop is embedded with explicit
fuel, one unit per source chunk (each `Read` consumes exactly one chunk, so
`chunkCount` fuel reaches EOF). -/

/-- A stacked reader: the raw stream, or a `hashingReader` wrapping an inner
reader. -/
inductive Reader where
  | src (chunks : List (List Nat))
  | hashing (inner : Reader) (hasher : HashState)

/-- One `Read` call: `none` is EOF; otherwise the chunk delivered and the
reader afterwards (each hashing layer feeds the chunk to its accumulator,
exactly as `hashingReader.Read` writes `buf[:n]`). -/
def readOne : Reader → Option (List Nat × Reader)
  | .src [] => none
  | .src (c :: cs) => some (c, .src cs)
  | .hashing inner h =>
      match readOne inner with
      | none => none
      | some (c, inner') => some (c, .hashing inner' (hashWrite h c))

/-- Number of chunks left in the underlying source. -/
def chunkCount : Reader → Nat
  | .src cs => cs.length
  | .hashing inner _ => chunkCount inner

/-- The `io.Copy` loop with explicit fuel: read until EOF, returning all
bytes delivered (in order) and the final reader (with its accumulator
states). -/
def copyFuel : Nat → Reader → List Nat × Reader
  | 0, r => ([], r)
  | fuel + 1, r =>
      match readOne r with
      | none => ([], r)
      | some (c, r') =>
          let rest := copyFuel fuel r'
          (c ++ rest.1, rest.2)

/-- The `io.Copy(dst, r)`: drive the reader to EOF. -/
def copyAll (r : Reader) : List Nat × Reader := copyFuel (chunkCount r) r

theorem copyFuel_hashing (fuel : Nat) :
    ∀ (r : Reader) (h : HashState),
      copyFuel fuel (.hashing r h) =
        ((copyFuel fuel r).1,
          .hashing (copyFuel fuel r).2 (hashWrite h (copyFuel fuel r).1)) := by
  induction fuel with
  | zero => intro r h; simp [copyFuel, hashWrite_nil]
  | succ fuel ih =>
      intro r h
      simp only [copyFuel]
      cases hr : readOne r with
      | none => simp [readOne, hr, hashWrite_nil]
      | some cr =>
          obtain ⟨c, r'⟩ := cr
          simp [readOne, hr, ih, hashWrite_append]

theorem copyFuel_src (cs : List (List Nat)) :
    copyFuel cs.length (.src cs) = (cs.flatten, .src []) := by
  induction cs with
  | nil => simp [copyFuel]
  | cons c rest ih => simp [copyFuel, readOne, ih]

theorem chunkCount_hashing (r : Reader) (h : HashState) :
    chunkCount (.hashing r h) = chunkCount r := rfl

/-- The three-layer stack built by `write` (local hasher innermost, then the
size counter, then the remote hasher), driven to EOF by the storage sink.
Returns the bytes delivered plus the three final accumulator states. -/
def runStack (chunks : List (List Nat)) (h sz rh : HashState) :
    List Nat × HashState × HashState × HashState :=
  match copyAll (.hashing (.hashing (.hashing (.src chunks) h) sz) rh) with
  | (bs, .hashing (.hashing (.hashing _ h') sz') rh') => (bs, h', sz', rh')
  | (bs, _) => (bs, h, sz, rh)

theorem runStack_eq (chunks : List (List Nat)) (h sz rh : HashState) :
    runStack chunks h sz rh =
      (chunks.flatten, hashWrite h chunks.flatten, hashWrite sz chunks.flatten,
        hashWrite rh chunks.flatten) := by
  unfold runStack copyAll
  rw [chunkCount_hashing, chunkCount_hashing, chunkCount_hashing]
  rw [copyFuel_hashing, copyFuel_hashing, copyFuel_hashing]
  rw [show chunkCount (.src chunks) = chunks.length from rfl, copyFuel_src]

/-- The `storage` record parsed from a storage identifier. -/
structure Storage where
  driver : String
  bucket : String
  filename : String
  deriving DecidableEq, Repr

/-- Go `strings.Split(s, sep)` for a non-empty separator, with explicit
fuel (one unit per character of the input; `fuel = length` always
suffices). -/
def splitStrAux (sep : List Char) : Nat -> List Char -> List (List Char)
  | _, [] => [[]]
  | 0, l => [l]
  | fuel + 1, x :: xs =>
      if sep ≠ [] ∧ sep.isPrefixOf (x :: xs) then
        [] :: splitStrAux sep fuel (List.drop sep.length (x :: xs))
      else
        match splitStrAux sep fuel xs with
        | [] => [[x]]
        | y :: ys => (x :: y) :: ys

/-- Go `strings.Split` on `String`s (separator never empty in this
code base). -/
def goSplit (s sep : String) : List String :=
  (splitStrAux sep.data s.data.length s.data).map String.mk

/-- The `getStorage`: parse `driver://[bucket:]filename`; any other shape gives
all-empty fields (resp. an empty bucket). -/
def getStorage (storageIdentifier : String) : Storage :=
  let first := goSplit storageIdentifier "://"
  if first.length = 2 then
    let driver := first.getD 0 ""
    let filename := first.getD 1 ""
    let second := goSplit filename ":"
    if second.length = 2 then ⟨driver, second.getD 0 "", second.getD 1 ""⟩
    else ⟨driver, "", filename⟩
  else ⟨"", "", ""⟩

/-- Process configuration consumed by the storage layer (`config.Options`
and the `directUpload` flag). -/
structure Config where
  defaultDriver : String
  directUpload : String
  deriving Repr

/-- Outcomes of the external effects of one `write` call: the stream open,
the file/indirect sink (`getFile`, `io.Copy`/`Close`/SWORD-POST errors,
merged as the source merges them into one error), and the S3 session and
managed upload. -/
structure WriteEnv where
  openResult : Except String (List (List Nat))
  getFileErr : Option String
  fileSinkErr : Option String
  sessionErr : Option String
  s3Err : Option String

/-- The streaming writer `write` of the storage layer: open the stream, wrap
it in three hashing layers (local hash, size counter, remote hash), stream
once into the sink selected by driver and configuration, and return the two
digests plus the byte count.  External I/O failures come from `env`; on
success the whole stream has passed through the stack exactly once. -/
def write (cfg : Config) (env : WriteEnv) (storageIdentifier : String)
    (persistentId : List Char) (hashType remoteHashType : String)
    (fileSize : Nat) : Except String (Digest × Digest × Nat) :=
  match trimProtocol persistentId with
  | Except.error e => Except.error e
  | Except.ok _pid =>
  let s := getStorage storageIdentifier
  match getHash hashType fileSize with
  | Except.error e => Except.error e
  | Except.ok hasher =>
  let sizeHasher := HashState.sizeacc 0
  match getHash remoteHashType fileSize with
  | Except.error e => Except.error e
  | Except.ok remoteHasher =>
  match env.openResult with
  | Except.error e => Except.error e
  | Except.ok chunks =>
  if s.driver = "file" ∨ cfg.defaultDriver = "" ∨ cfg.directUpload ≠ "true" then
    match env.getFileErr with
    | some e => Except.error e
    | none =>
        let (_, h', sz', rh') := runStack chunks hasher sizeHasher remoteHasher
        match env.fileSinkErr with
        | some e => Except.error ("writing failed: " ++ e)
        | none => Except.ok (hashSum h', hashSum rh', hashSize sz')
  else if s.driver = "s3" then
    match env.sessionErr with
    | some e => Except.error e
    | none =>
        let (_, h', sz', rh') := runStack chunks hasher sizeHasher remoteHasher
        match env.s3Err with
        | some e => Except.error e
        | none => Except.ok (hashSum h', hashSum rh', hashSize sz')
  else
    Except.error ("unsupported driver: " ++ s.driver)

/-- Spec-side digest of a flat byte sequence under a hash kind: create the
accumulator for `fileSize`, feed the whole sequence, take the digest. -/
def digestOfBytes (kind : String) (fileSize : Nat) (B : List Nat) :
    Except String Digest :=
  (getHash kind fileSize).map (fun st => hashSum (hashWrite st B))

/-- C4: For every successful `write`, the three results all come from
the single byte sequence streamed to the storage sink in one pass (the
stream is opened and read exactly once, never rewound): the first digest is
the configured local hash of those bytes, the second is the remote-kind hash
of those bytes, and the returned size is their count. -/
theorem C4_write_single_pass (cfg : Config) (env : WriteEnv)
    (storageIdentifier : String) (persistentId : List Char)
    (hashType remoteHashType : String) (fileSize : Nat)
    (chunks : List (List Nat)) (d rd : Digest) (n : Nat)
    (ho : env.openResult = Except.ok chunks)
    (hw : write cfg env storageIdentifier persistentId hashType remoteHashType
        fileSize = Except.ok (d, rd, n)) :
    digestOfBytes hashType fileSize chunks.flatten = Except.ok d ∧
    digestOfBytes remoteHashType fileSize chunks.flatten = Except.ok rd ∧
    n = chunks.flatten.length := by
  unfold write at hw
  cases htp : trimProtocol persistentId with
  | error e => rw [htp] at hw; exact absurd hw (by simp)
  | ok pid =>
  rw [htp] at hw
  cases hh : getHash hashType fileSize with
  | error e => rw [hh] at hw; exact absurd hw (by simp)
  | ok hasher =>
  rw [hh] at hw
  cases hrh : getHash remoteHashType fileSize with
  | error e => rw [hrh] at hw; exact absurd hw (by simp)
  | ok remoteHasher =>
  rw [hrh] at hw
  rw [ho] at hw
  simp only [runStack_eq] at hw
  have goal_of_ok :
      Except.ok (ε := String) (hashSum (hashWrite hasher chunks.flatten),
        hashSum (hashWrite remoteHasher chunks.flatten),
        hashSize (hashWrite (HashState.sizeacc 0) chunks.flatten)) =
        Except.ok (d, rd, n) →
      digestOfBytes hashType fileSize chunks.flatten = Except.ok d ∧
      digestOfBytes remoteHashType fileSize chunks.flatten = Except.ok rd ∧
      n = chunks.flatten.length := by
    intro h
    obtain ⟨h1, h2, h3⟩ : hashSum (hashWrite hasher chunks.flatten) = d ∧
        hashSum (hashWrite remoteHasher chunks.flatten) = rd ∧
        hashSize (hashWrite (HashState.sizeacc 0) chunks.flatten) = n := by
      have hp := Except.ok.inj h
      exact ⟨congrArg Prod.fst hp, congrArg (fun p => p.2.1) hp,
        congrArg (fun p => p.2.2) hp⟩
    refine ⟨?_, ?_, ?_⟩
    · simp [digestOfBytes, hh, Except.map, h1]
    · simp [digestOfBytes, hrh, Except.map, h2]
    · rw [← h3]; simp [hashWrite, hashSize]
  split at hw
  · cases hgf : env.getFileErr with
    | some e => rw [hgf] at hw; exact absurd hw (by simp)
    | none =>
        rw [hgf] at hw
        cases hfs : env.fileSinkErr with
        | some e => rw [hfs] at hw; exact absurd hw (by simp)
        | none => rw [hfs] at hw; exact goal_of_ok hw
  · split at hw
    · cases hse : env.sessionErr with
      | some e => rw [hse] at hw; exact absurd hw (by simp)
      | none =>
          rw [hse] at hw
          cases hs3 : env.s3Err with
          | some e => rw [hs3] at hw; exact absurd hw (by simp)
          | none => rw [hs3] at hw; exact goal_of_ok hw
    · exact absurd hw (by simp)

/-- Witness for C4: a concrete two-chunk stream written with local hash
`md5` and remote hash `gitHash` over the `file` driver. -/
theorem C4_write_single_pass_witness :
    (let cfg : Config := ⟨"file", "true"⟩
     let env : WriteEnv := ⟨Except.ok [[1, 2], [3]], none, none, none, none⟩
     write cfg env "file://abc" ("doi:10.5072/FK2/ABC".data) Md5 GitHash 3 =
       Except.ok (Digest.md5 [1, 2, 3],
         Digest.sha1 (gitBlobHeader 3 ++ [1, 2, 3]), 3)) ∧
    (digestOfBytes Md5 3 [1, 2, 3] = Except.ok (Digest.md5 [1, 2, 3]) ∧
     digestOfBytes GitHash 3 [1, 2, 3] =
       Except.ok (Digest.sha1 (gitBlobHeader 3 ++ [1, 2, 3])) ∧
     (3 : Nat) = [1, 2, 3].length) := by
  constructor
  · rfl
  · exact C4_write_single_pass ⟨"file", "true"⟩
      ⟨Except.ok [[1, 2], [3]], none, none, none, none⟩ "file://abc"
      ("doi:10.5072/FK2/ABC".data) Md5 GitHash 3 [[1, 2], [3]]
      (Digest.md5 [1, 2, 3]) (Digest.sha1 (gitBlobHeader 3 ++ [1, 2, 3])) 3
      rfl rfl

/-! Section: Data model (`tree.Node` and the hash cache; spec §3)

The `integration/app/tree` package is not under `src/`; its `Node`
structure is modelled from the spec's data model (§3) and from every field
access the sources make (`Id`, `Name`, `Path`, `Action`,
`Attributes.{ParentId, Metadata, IsFile, RemoteHash, RemoteHashType,
LocalHash}`, `Metadata.{DirectoryLabel, DataFile}`,
`DataFile.{Id, Filename, Filesize, StorageIdentifier, Checksum}`). -/

/-- Modelled from the spec: the action constants of package `tree`
(`equal`, `new`, `update`, `delete`, `unknown`). -/
inductive Action where
  | equal
  | new
  | update
  | delete
  | unknown
  deriving DecidableEq, Repr

/-- The `dv.Checksum` / `tree`-side checksum record `{Type, Value}`. -/
structure Checksum where
  type : String
  value : String
  deriving DecidableEq, Repr

/-- The `tree.DataFile`: the dataset repository's opaque file record. -/
structure DataFile where
  id : Nat
  filename : String
  filesize : Nat
  storageIdentifier : String
  checksum : Checksum
  deriving DecidableEq, Repr

/-- The `tree.Metadata`. -/
structure Metadata where
  directoryLabel : String
  dataFile : DataFile
  deriving DecidableEq, Repr

/-- The `tree.Attributes`. -/
structure Attributes where
  parentId : String
  metadata : Metadata
  isFile : Bool
  remoteHash : String
  remoteHashType : String
  localHash : String
  deriving DecidableEq, Repr

/-- The `tree.Node`. -/
structure Node where
  id : String
  name : String
  path : String
  action : Action
  attributes : Attributes
  deriving DecidableEq, Repr

/-- The `calculatedHashes`: one hash-cache entry. -/
structure calculatedHashes where
  LocalHashType : String
  LocalHashValue : String
  RemoteHashes : List (String × String)
  deriving DecidableEq, Repr

/-- The `defaultHash` (process configuration; default `md5`). -/
def defaultHash : String := Md5

/-- Modelled from the spec: the transient-marker value constants
`types.Written` / `types.Deleted` of package `integration/app/plugin/types`
(not under `src/`); the spec gives the marker values as
`"written" | "deleted"`. -/
def Written : String := "written"

/-- Modelled from the spec: see `Written`. -/
def Deleted : String := "deleted"

/-! Section: Job queue and per-dataset lock (`jobs` layer; spec §4.5)

Source (Go):
```
var lockMaxDuration = time.Hour * 24

func lock(persistentId string) bool {
    ok := rdb.SetNX(context.Background(), "lock: "+persistentId, true, lockMaxDuration)
    return ok.Val()
}

func addJob(job Job, requireLock bool) error {
    if len(job.WritableNodes) == 0 { return nil }
    if requireLock && !lock(job.PersistentId) {
        return fmt.Errorf("Job for this dataverse is already in progress")
    }
    b, err := json.Marshal(job)
    if err != nil { return err }
    cmd := rdb.LPush(context.Background(), "jobs", string(b))
    return cmd.Err()
}
```
The shared Redis store is modelled as a record: lock keys (each remembering
the TTL it was set with, in hours) and the `jobs` FIFO (`LPush` prepends,
`RPop` takes from the back). -/

/-- A sync job (`utils.Job`); the `Streams`/`StreamParams` request payloads
are opaque to the queue and comparator layers and are not modelled. -/
structure Job where
  dataverseKey : String
  persistentId : String
  writableNodes : List (String × Node)
  streamType : String
  deriving Repr

/-- The `lockMaxDuration = time.Hour * 24`, counted in hours. -/
def lockMaxDurationHours : Nat := 24

/-- The shared key-value store visible to the queue layer. -/
structure Store where
  locks : List (String × Nat)
  jobs : List Job

/-- The `lock(persistentId)`: Redis `SetNX` on key `"lock: " + persistentId`
with TTL `lockMaxDuration`; true iff the key was absent and is now set. -/
def lock (persistentId : String) (st : Store) : Bool × Store :=
  match alookup st.locks ("lock: " ++ persistentId) with
  | some _ => (false, st)
  | none =>
      (true,
        { st with
          locks := ainsert st.locks ("lock: " ++ persistentId) lockMaxDurationHours })

/-- The `unlock(persistentId)`: Redis `Del` of the lock key. -/
def unlock (persistentId : String) (st : Store) : Store :=
  { st with locks := aerase st.locks ("lock: " ++ persistentId) }

/-- The `addJob(job, requireLock)`: empty jobs are dropped silently; with
`requireLock` the per-dataset lock must be acquired first, else the
dataset-busy error; then `LPush` onto the `jobs` FIFO. -/
def addJob (job : Job) (requireLock : Bool) (st : Store) : Except String Store :=
  if job.writableNodes.length = 0 then Except.ok st
  else if requireLock then
    match lock job.persistentId st with
    | (false, _) => Except.error "Job for this dataverse is already in progress"
    | (true, st') => Except.ok { st' with jobs := job :: st'.jobs }
  else Except.ok { st with jobs := job :: st.jobs }

/-- The `AddJob(job)`: the public enqueue, always requiring the lock. -/
def AddJob (job : Job) (st : Store) : Except String Store :=
  addJob job true st

/-- C2: A public enqueue with non-empty `writableNodes` takes the
per-dataset lock by set-if-absent with the 24-hour TTL and fails with the
dataset-busy error when the lock is already held; a residual re-enqueue
(`requireLock = false`) bypasses the lock check; consequently a second
public enqueue for the same persistent id while the first is in progress
always fails with the dataset-busy error. -/
theorem C2_per_dataset_exclusion :
    (∀ (job : Job) (st : Store), job.writableNodes ≠ [] →
        (alookup st.locks ("lock: " ++ job.persistentId)).isSome →
        AddJob job st = Except.error "Job for this dataverse is already in progress") ∧
    (∀ (job : Job) (st : Store), job.writableNodes ≠ [] →
        alookup st.locks ("lock: " ++ job.persistentId) = none →
        AddJob job st =
          Except.ok
            { st with
              locks := ainsert st.locks ("lock: " ++ job.persistentId) lockMaxDurationHours,
              jobs := job ::
                ({ st with
                   locks := ainsert st.locks ("lock: " ++ job.persistentId)
                     lockMaxDurationHours } : Store).jobs } ∧
        lockMaxDurationHours = 24) ∧
    (∀ (job : Job) (st : Store), ∃ st', addJob job false st = Except.ok st') ∧
    (∀ (job1 job2 : Job) (st st' : Store),
        job1.persistentId = job2.persistentId →
        job1.writableNodes ≠ [] → job2.writableNodes ≠ [] →
        AddJob job1 st = Except.ok st' →
        AddJob job2 st' = Except.error "Job for this dataverse is already in progress") := by
  have hbusy : ∀ (job : Job) (st : Store), job.writableNodes ≠ [] →
      (alookup st.locks ("lock: " ++ job.persistentId)).isSome →
      AddJob job st = Except.error "Job for this dataverse is already in progress" := by
    intro job st hne hheld
    unfold AddJob addJob lock
    rw [if_neg (by simpa using hne)]
    cases hl : alookup st.locks ("lock: " ++ job.persistentId) with
    | none => rw [hl] at hheld; simp at hheld
    | some v => simp [hl]
  have hfree : ∀ (job : Job) (st : Store), job.writableNodes ≠ [] →
      alookup st.locks ("lock: " ++ job.persistentId) = none →
      AddJob job st =
        Except.ok
          { st with
            locks := ainsert st.locks ("lock: " ++ job.persistentId) lockMaxDurationHours,
            jobs := job ::
              ({ st with
                 locks := ainsert st.locks ("lock: " ++ job.persistentId)
                   lockMaxDurationHours } : Store).jobs } := by
    intro job st hne hfree
    unfold AddJob addJob lock
    rw [if_neg (by simpa using hne)]
    simp [hfree]
  refine ⟨hbusy, fun job st hne hf => ⟨hfree job st hne hf, rfl⟩, ?_, ?_⟩
  · intro job st
    unfold addJob
    by_cases h : job.writableNodes.length = 0
    · exact ⟨st, by rw [if_pos h]⟩
    · exact ⟨{ st with jobs := job :: st.jobs }, by rw [if_neg h]; simp⟩
  · intro job1 job2 st st' hpid hne1 hne2 hok
    apply hbusy job2 st' hne2
    unfold AddJob addJob lock at hok
    rw [if_neg (by simpa using hne1)] at hok
    cases hl : alookup st.locks ("lock: " ++ job1.persistentId) with
    | some v => rw [hl] at hok; simp at hok
    | none =>
        rw [hl] at hok
        simp only at hok
        obtain rfl : ({ st with
            locks := ainsert st.locks ("lock: " ++ job1.persistentId) lockMaxDurationHours,
            jobs := job1 :: st.jobs } : Store) = st' := by
          exact Except.ok.inj hok
        rw [← hpid]
        simp [alookup_ainsert_self]

/-- Witness for C2 at concrete jobs and stores. -/
theorem C2_per_dataset_exclusion_witness :
    (let node : Node := ⟨"a.txt", "a.txt", "", Action.new,
        ⟨"", ⟨"", ⟨0, "a.txt", 5, "", ⟨"md5", "x"⟩⟩⟩, true, "r", "sha1", ""⟩⟩
     let job : Job := ⟨"key", "doi:10/X", [("a.txt", node)], ""⟩
     AddJob job ⟨[("lock: doi:10/X", 24)], []⟩ =
       Except.error "Job for this dataverse is already in progress") ∧
    (let node : Node := ⟨"a.txt", "a.txt", "", Action.new,
        ⟨"", ⟨"", ⟨0, "a.txt", 5, "", ⟨"md5", "x"⟩⟩⟩, true, "r", "sha1", ""⟩⟩
     let job : Job := ⟨"key", "doi:10/X", [("a.txt", node)], ""⟩
     ∃ st', addJob job false ⟨[("lock: doi:10/X", 24)], []⟩ = Except.ok st') := by
  constructor
  · exact C2_per_dataset_exclusion.1 _ _ (by simp) (by simp [alookup])
  · exact C2_per_dataset_exclusion.2.2.1 _ _

/-! Section: Pre-write filtering (`filterRedundant`; spec §4.4 last paragraph)

Source (Go, `utils/dataverse.go`):
```
func filterRedundant(job Job, knownHashes map[string]calculatedHashes) (map[string]tree.Node, error) {
    filteredEqual := map[string]tree.Node{}
    isDelete := false
    for k, v := range job.WritableNodes {
        h, ok := knownHashes[k].RemoteHashes[v.Attributes.RemoteHashType]
        if v.Action == tree.Delete {
            isDelete = true
        } else if ok && h == v.Attributes.RemoteHash {
            continue
        }
        filteredEqual[k] = v
    }
    if !isDelete { return filteredEqual, nil }
    res := map[string]tree.Node{}
    nm, err := GetNodeMap(job.PersistentId, job.DataverseKey)
    if err != nil { return nil, err }
    for k, v := range filteredEqual {
        _, ok := nm[k]
        if v.Action == tree.Delete && ok { continue }
        res[k] = v
    }
    return res, nil
}
```
`GetNodeMap` (the dataset's current file tree, fetched over HTTP) enters as
an oracle value. -/

/-- First pass of `filterRedundant`: drop non-delete nodes whose cached
remote hash already equals the desired one; flag whether any delete action
was seen. -/
def frFirstPass (knownHashes : List (String × calculatedHashes)) :
    List (String × Node) → List (String × Node) × Bool
  | [] => ([], false)
  | (k, v) :: rest =>
      let tailRes := frFirstPass knownHashes rest
      let hOpt := (alookup knownHashes k).bind
        (fun ch => alookup ch.RemoteHashes v.attributes.remoteHashType)
      if v.action = Action.delete then ((k, v) :: tailRes.1, true)
      else
        match hOpt with
        | some h =>
            if h = v.attributes.remoteHash then tailRes
            else ((k, v) :: tailRes.1, tailRes.2)
        | none => ((k, v) :: tailRes.1, tailRes.2)

/-- The `filterRedundant`: the first pass, then — only when a delete action is
present — one query of the dataset's current tree (`getNodeMapRes`) and a
second pass over the survivors. -/
def filterRedundant (getNodeMapRes : Except String (List (String × Node)))
    (writableNodes : List (String × Node))
    (knownHashes : List (String × calculatedHashes)) :
    Except String (List (String × Node)) :=
  let fp := frFirstPass knownHashes writableNodes
  if ¬ fp.2 then Except.ok fp.1
  else
    match getNodeMapRes with
    | Except.error e => Except.error e
    | Except.ok nm =>
        Except.ok (fp.1.filter
          (fun kv => ¬ (kv.2.action = Action.delete ∧ (alookup nm kv.1).isSome)))

/-- C1 (failing input): Source scenario `stale delete` of the spec: the
job holds one `delete` node for `b.txt` whose file is already gone from the
dataset (the freshly queried tree is empty).  The claim and the spec say the
delete is dropped and the worker completes with an empty residual; the code
keeps it — the second pass of `filterRedundant` drops a delete exactly when
its id IS STILL PRESENT in the fresh tree (`if v.Action == tree.Delete && ok
{ continue }`), the inverse of the stated filter.  Dually, a delete whose
file is still present (id `"c.txt"` below) is dropped although the claim
says it must be kept unchanged. -/
theorem C1_filterRedundant_inverted :
    (let bNode : Node := ⟨"b.txt", "b.txt", "", Action.delete,
        ⟨"", ⟨"", ⟨7, "b.txt", 5, "file://x", ⟨"md5", "h"⟩⟩⟩, true, "", "sha1", "h"⟩⟩
     filterRedundant (Except.ok []) [("b.txt", bNode)] [] =
       Except.ok [("b.txt", bNode)]) ∧
    (let cNode : Node := ⟨"c.txt", "c.txt", "", Action.delete,
        ⟨"", ⟨"", ⟨8, "c.txt", 5, "file://y", ⟨"md5", "h"⟩⟩⟩, true, "", "sha1", "h"⟩⟩
     filterRedundant (Except.ok [("c.txt", cNode)]) [("c.txt", cNode)] [] =
       Except.ok []) := by
  constructor
  · rfl
  · rfl

/-! Section: The write loop (`doPersistNodeMap`; spec §4.5)

Source (Go, `utils/dataverse.go`, abridged to the effectful skeleton):
```
func doPersistNodeMap(ctx, streams, in Job, knownHashes) (out Job, err error) {
    err = CheckPermission(in.DataverseKey, in.PersistentId)
    if err != nil { return }
    defer func() { storeKnownHashes(persistentId, knownHashes) }()
    out = in
    for k, v := range writableNodes {
        select { case <-ctx.Done(): err = ctx.Err(); return; default: }
        i++ ; if i%10 == 0 && i < total { storeKnownHashes(...) }
        if v.Action == tree.Delete {
            err = deleteFromDV(dataverseKey, v.Attributes.Metadata.DataFile.Id)
            if err != nil { return }
            delete(knownHashes, v.Id)
            delete(out.WritableNodes, k)
            continue
        }
        h, remoteH, err = write(...)
        if err != nil { return }
        knownHashes[v.Id] = calculatedHashes{defaultHash, hex(h), {remoteHashType: hex(remoteH)}}
        if v.Attributes.Metadata.DataFile.Id != 0 {
            err = deleteFromDV(...); if err != nil { return }
        }
        err = writeToDV(dataverseKey, persistentId, data)
        if err != nil { return }
        delete(out.WritableNodes, k)
    }
    select { case <-ctx.Done(): err = ctx.Err(); return
    default: err = cleanup(in.DataverseKey, in.PersistentId) }
    return
}
```
External calls enter as oracles; the Redis transient-marker table is
carried through the state so that claims about markers can be stated (this
version of the loop performs no marker writes).  The periodic
`storeKnownHashes` flush writes the very map that is threaded here and has
no further observable effect, so it is not modelled separately.  Hash
values appear as the hex strings the code stores. -/

/-- Oracle outcomes for one `doPersistNodeMap` run.  `cancelAt i` is
whether `ctx.Done()` has fired when `i` nodes have been processed;
`deleteResult` is keyed by the numeric Dataverse file id, `writeResult`
(returning the local and remote hex digests) and `addFilesResult` by the
node's map key. -/
structure PersistEnv where
  permission : Option String
  cancelAt : Nat → Bool
  deleteResult : Nat → Option String
  writeResult : String → Except String (String × String)
  addFilesResult : String → Option String
  cancelAtEnd : Bool
  cleanupResult : Option String

/-- Result of a worker loop: residual `writableNodes`, the hash cache, the
Redis transient-marker table, and the error (Go `err`). -/
structure PersistResult where
  residual : List (String × Node)
  knownHashes : List (String × calculatedHashes)
  markers : List (String × String)
  err : Option String
  deriving Repr

/-- The per-node loop of `doPersistNodeMap`. -/
def persistLoop (env : PersistEnv) :
    List (String × Node) → Nat → List (String × Node) →
    List (String × calculatedHashes) → List (String × String) → PersistResult
  | [], _, residual, kh, mk =>
      if env.cancelAtEnd then ⟨residual, kh, mk, some "context canceled"⟩
      else ⟨residual, kh, mk, env.cleanupResult⟩
  | (k, v) :: rest, i, residual, kh, mk =>
      if env.cancelAt i then ⟨residual, kh, mk, some "context canceled"⟩
      else if v.action = Action.delete then
        match env.deleteResult v.attributes.metadata.dataFile.id with
        | some e => ⟨residual, kh, mk, some e⟩
        | none =>
            persistLoop env rest (i + 1) (aerase residual k) (aerase kh v.id) mk
      else
        match env.writeResult k with
        | Except.error e => ⟨residual, kh, mk, some e⟩
        | Except.ok (hashValue, remoteHashValue) =>
            let kh' := ainsert kh v.id
              ⟨defaultHash, hashValue,
                [(v.attributes.remoteHashType, remoteHashValue)]⟩
            match
              (if v.attributes.metadata.dataFile.id ≠ 0 then
                env.deleteResult v.attributes.metadata.dataFile.id
              else none) with
            | some e => ⟨residual, kh', mk, some e⟩
            | none =>
                match env.addFilesResult k with
                | some e => ⟨residual, kh', mk, some e⟩
                | none => persistLoop env rest (i + 1) (aerase residual k) kh' mk

/-- The `doPersistNodeMap`: permission check, then the per-node loop over
`in.WritableNodes` with the residual starting as the full input (note that
a permission failure returns the zero `Job`, hence an empty residual, with
the error). -/
def doPersistNodeMap (env : PersistEnv) (in_ : Job)
    (kh : List (String × calculatedHashes)) (mk : List (String × String)) :
    PersistResult :=
  match env.permission with
  | some e => ⟨[], kh, mk, some e⟩
  | none => persistLoop env in_.writableNodes 0 in_.writableNodes kh mk

theorem persistLoop_residual_le (env : PersistEnv) :
    ∀ (nodes : List (String × Node)) (i : Nat) (residual : List (String × Node))
      (kh : List (String × calculatedHashes)) (mk : List (String × String)),
      (persistLoop env nodes i residual kh mk).residual.length ≤ residual.length := by
  intro nodes
  induction nodes with
  | nil =>
      intro i residual kh mk
      simp only [persistLoop]
      split <;> simp
  | cons hd rest ih =>
      intro i residual kh mk
      obtain ⟨k, v⟩ := hd
      simp only [persistLoop]
      split
      · simp
      · split
        · split
          · simp
          · exact le_trans (ih _ _ _ _) (aerase_length_le residual k)
        · split
          · simp
          · split
            · simp
            · split
              · simp
              · exact le_trans (ih _ _ _ _) (aerase_length_le residual k)

/-! Section: The hash-only loop (`calculateHash`, `doRehash`; spec §4.4)

Source (Go, `utils`):
```
func calculateHash(ctx, dataverseKey, persistentId string, node tree.Node, knownHashes map[string]calculatedHashes) error {
    hashType := node.Attributes.RemoteHashType
    known, ok := knownHashes[node.Id]
    if ok && known.LocalHashType == node.Attributes.Metadata.DataFile.Checksum.Type
          && known.LocalHashValue == node.Attributes.Metadata.DataFile.Checksum.Value {
        _, ok2 := known.RemoteHashes[hashType]
        if ok2 { return nil }
    } else {
        known = calculatedHashes{Checksum.Type, Checksum.Value, map[string]string{}}
    }
    h, err := doHash(ctx, dataverseKey, persistentId, node)
    if err != nil { return fmt.Errorf("failed to hash local file %v: %v", ..., err) }
    known.RemoteHashes[hashType] = fmt.Sprintf("%x", h)
    knownHashes[node.Id] = known
    return nil
}
```
`doHash` (re-reading the stored bytes) enters as an oracle giving the hex
digest of the current bytes, or an error.  The returned `Bool` records
whether the bytes were (re-)read. -/

/-- The `calculateHash`: one node of the hash-only job. -/
def calculateHash (doHashRes : Except String String) (node : Node)
    (knownHashes : List (String × calculatedHashes)) :
    Except String (List (String × calculatedHashes) × Bool) :=
  let hashType := node.attributes.remoteHashType
  let cs := node.attributes.metadata.dataFile.checksum
  let proceed := fun (known : calculatedHashes) =>
    match doHashRes with
    | Except.error e =>
        Except.error ("failed to hash local file " ++
          node.attributes.metadata.dataFile.storageIdentifier ++ ": " ++ e)
    | Except.ok h =>
        Except.ok (ainsert knownHashes node.id
          { known with RemoteHashes := ainsert known.RemoteHashes hashType h },
          true)
  match alookup knownHashes node.id with
  | some known =>
      if known.LocalHashType = cs.type ∧ known.LocalHashValue = cs.value then
        match alookup known.RemoteHashes hashType with
        | some _ => Except.ok (knownHashes, false)
        | none => proceed known
      else proceed ⟨cs.type, cs.value, []⟩
  | none => proceed ⟨cs.type, cs.value, []⟩

/-- Oracle outcomes for one `doRehash` run: the permission probe and, per
node key, the `doHash` re-read of the stored bytes. -/
structure RehashEnv where
  permission : Option String
  doHashRes : String → Except String String

/-- Result of a hash-only job. -/
structure RehashResult where
  residual : List (String × Node)
  knownHashes : List (String × calculatedHashes)
  err : Option String
  deriving Repr

/-- The per-node loop of `doRehash`: any `calculateHash` error aborts; a
node leaves the residual only after its `calculateHash` succeeded. -/
def rehashLoop (env : RehashEnv) :
    List (String × Node) → List (String × Node) →
    List (String × calculatedHashes) → RehashResult
  | [], residual, kh => ⟨residual, kh, none⟩
  | (k, node) :: rest, residual, kh =>
      match calculateHash (env.doHashRes k) node kh with
      | Except.error e => ⟨residual, kh, some e⟩
      | Except.ok (kh', _) => rehashLoop env rest (aerase residual k) kh'

/-- The `doRehash`: permission check, then the loop (a permission failure
returns the zero `Job`, hence an empty residual, with the error). -/
def doRehash (env : RehashEnv) (in_ : Job)
    (kh : List (String × calculatedHashes)) : RehashResult :=
  match env.permission with
  | some e => ⟨[], kh, some e⟩
  | none => rehashLoop env in_.writableNodes in_.writableNodes kh

theorem rehashLoop_residual_le (env : RehashEnv) :
    ∀ (nodes residual : List (String × Node))
      (kh : List (String × calculatedHashes)),
      (rehashLoop env nodes residual kh).residual.length ≤ residual.length := by
  intro nodes
  induction nodes with
  | nil => intro residual kh; simp [rehashLoop]
  | cons hd rest ih =>
      intro residual kh
      obtain ⟨k, node⟩ := hd
      simp only [rehashLoop]
      split
      · simp
      · exact le_trans (ih _ _) (aerase_length_le residual k)

/-- C3: In both worker loops (the write loop `doPersistNodeMap` and the
hash-only loop `doRehash`) a node leaves the residual only after its
per-node steps succeeded and any per-node error aborts the job, so every
completed job either reports an error or returns a residual strictly
smaller than its input `writableNodes`. -/
theorem C3_residual_progress :
    (∀ (env : PersistEnv) (in_ : Job) (kh : List (String × calculatedHashes))
        (mk : List (String × String)), in_.writableNodes ≠ [] →
        (doPersistNodeMap env in_ kh mk).err ≠ none ∨
        (doPersistNodeMap env in_ kh mk).residual.length <
          in_.writableNodes.length) ∧
    (∀ (env : RehashEnv) (in_ : Job) (kh : List (String × calculatedHashes)),
        in_.writableNodes ≠ [] →
        (doRehash env in_ kh).err ≠ none ∨
        (doRehash env in_ kh).residual.length < in_.writableNodes.length) := by
  constructor
  · intro env in_ kh mk hne
    unfold doPersistNodeMap
    cases env.permission with
    | some e => simp
    | none =>
        simp only
        cases hn : in_.writableNodes with
        | nil => exact absurd hn hne
        | cons hd rest =>
            obtain ⟨k, v⟩ := hd
            have hlt : (aerase ((k, v) :: rest) k).length < ((k, v) :: rest).length :=
              aerase_length_lt _ _ (by simp [alookup])
            simp only [persistLoop]
            split
            · simp
            · split
              · split
                · simp
                · right
                  simp only [List.length_cons]
                  exact lt_of_le_of_lt (persistLoop_residual_le env _ _ _ _ _)
                    (by simpa using hlt)
              · split
                · simp
                · split
                  · simp
                  · split
                    · simp
                    · right
                      simp only [List.length_cons]
                      exact lt_of_le_of_lt (persistLoop_residual_le env _ _ _ _ _)
                        (by simpa using hlt)
  · intro env in_ kh hne
    unfold doRehash
    cases env.permission with
    | some e => simp
    | none =>
        simp only
        cases hn : in_.writableNodes with
        | nil => exact absurd hn hne
        | cons hd rest =>
            obtain ⟨k, node⟩ := hd
            have hlt : (aerase ((k, node) :: rest) k).length < ((k, node) :: rest).length :=
              aerase_length_lt _ _ (by simp [alookup])
            simp only [rehashLoop]
            split
            · simp
            · right
              simp only [List.length_cons]
              exact lt_of_le_of_lt (rehashLoop_residual_le env _ _ _)
                (by simpa using hlt)

/-- Witness for C3: one single-delete-node write job that succeeds end to
end, and one single-node hash-only job that succeeds; both finish with an
empty residual, strictly smaller than the input. -/
theorem C3_residual_progress_witness :
    (let node : Node := ⟨"b.txt", "b.txt", "", Action.delete,
        ⟨"", ⟨"", ⟨7, "b.txt", 5, "file://x", ⟨"md5", "h"⟩⟩⟩, true, "", "sha1", "h"⟩⟩
     let env : PersistEnv :=
       ⟨none, fun _ => false, fun _ => none, fun _ => Except.error "unused",
         fun _ => none, false, none⟩
     let job : Job := ⟨"key", "doi:10/X", [("b.txt", node)], ""⟩
     (doPersistNodeMap env job [] []).err ≠ none ∨
       (doPersistNodeMap env job [] []).residual.length <
         job.writableNodes.length) ∧
    (let node : Node := ⟨"a.txt", "a.txt", "", Action.update,
        ⟨"", ⟨"", ⟨3, "a.txt", 5, "file://y", ⟨"md5", "v"⟩⟩⟩, true, "r", "sha1", "v"⟩⟩
     let env : RehashEnv := ⟨none, fun _ => Except.ok "beef"⟩
     let job : Job := ⟨"key", "doi:10/X", [("a.txt", node)], "hash-only"⟩
     (doRehash env job []).err ≠ none ∨
       (doRehash env job []).residual.length < job.writableNodes.length) := by
  constructor
  · exact C3_residual_progress.1 _ _ [] [] (by simp)
  · exact C3_residual_progress.2 _ _ [] (by simp)

/-- C5 (failing input): One delete node processed successfully, and one
new-file node written and registered successfully: in this version of the
write loop the Redis transient-marker table is untouched in both cases —
no `<persistentId> -> <nodeId>` marker is ever set to `deleted` or
`written`, although the comparator (`localRehashNode` below) consumes such
markers. -/
theorem C5_no_markers_written :
    (let node : Node := ⟨"b.txt", "b.txt", "", Action.delete,
        ⟨"", ⟨"", ⟨7, "b.txt", 5, "file://x", ⟨"md5", "h"⟩⟩⟩, true, "", "sha1", "h"⟩⟩
     let env : PersistEnv :=
       ⟨none, fun _ => false, fun _ => none, fun _ => Except.error "unused",
         fun _ => none, false, none⟩
     let job : Job := ⟨"key", "doi:10/X", [("b.txt", node)], ""⟩
     let r := doPersistNodeMap env job [("b.txt", ⟨"md5", "h", []⟩)] []
     r.err = none ∧ r.residual = [] ∧ r.knownHashes = [] ∧
       alookup r.markers "doi:10/X -> b.txt" ≠ some Deleted ∧ r.markers = []) ∧
    (let node : Node := ⟨"a.txt", "a.txt", "", Action.new,
        ⟨"", ⟨"", ⟨0, "a.txt", 5, "", ⟨"", ""⟩⟩⟩, true, "r", "sha1", ""⟩⟩
     let env : PersistEnv :=
       ⟨none, fun _ => false, fun _ => none, fun _ => Except.ok ("aa", "bb"),
         fun _ => none, false, none⟩
     let job : Job := ⟨"key", "doi:10/X", [("a.txt", node)], ""⟩
     let r := doPersistNodeMap env job [] []
     r.err = none ∧ r.residual = [] ∧
       alookup r.markers "doi:10/X -> a.txt" ≠ some Written ∧ r.markers = []) := by
  constructor
  · refine ⟨rfl, rfl, rfl, ?_, rfl⟩
    intro h
    simp [doPersistNodeMap, persistLoop, alookup] at h
  · refine ⟨rfl, rfl, ?_, rfl⟩
    intro h
    simp [doPersistNodeMap, persistLoop, alookup] at h

/-! Section: The comparator's authoritative-hash cascade
(`localRehashToMatchRemoteHashType`; spec §4.3–§4.4)

Source (Go, `utils`, loop body):
```
for k, node := range nodes {
    if node.Attributes.RemoteHashType != "" {
        value, ok := knownHashes[node.Id].RemoteHashes[node.Attributes.RemoteHashType]
        if node.Attributes.LocalHash != "" && node.Attributes.RemoteHashType == node.Attributes.Metadata.DataFile.Checksum.Type {
            value, ok = node.Attributes.LocalHash, true
        }
        redisKey := fmt.Sprintf("%v -> %v", persistentId, k)
        redisValue := GetRedis().Get(ctx, redisKey).Val()
        if redisValue == types.Written { value, ok = node.Attributes.RemoteHash, true }
        if redisValue == types.Deleted { value, ok = "", false }
        if redisValue != "" { GetRedis().Del(ctx, redisKey) }
        if !ok && node.Attributes.LocalHash != "" {
            jobNodes[k] = node
            value = "?"
        }
        node.Attributes.LocalHash = value
    }
    res[k] = node
}
```
The loop body depends only on its own node (and deletes only its own
marker key), so it is embedded as a per-node function folded over the node
list. -/

/-- One comparator loop iteration: returns the annotated node, whether the
node was added to `jobNodes` (marked for rehash), and the marker table
after the read-and-delete of this node's transient marker. -/
def localRehashNode (persistentId k : String) (node : Node)
    (knownHashes : List (String × calculatedHashes))
    (redis : List (String × String)) :
    Node × Bool × List (String × String) :=
  if node.attributes.remoteHashType ≠ "" then
    let c0 : String × Bool :=
      match (alookup knownHashes node.id).bind
        (fun ch => alookup ch.RemoteHashes node.attributes.remoteHashType) with
      | some v => (v, true)
      | none => ("", false)
    let c1 :=
      if node.attributes.localHash ≠ "" ∧
          node.attributes.remoteHashType =
            node.attributes.metadata.dataFile.checksum.type then
        (node.attributes.localHash, true)
      else c0
    let redisKey := persistentId ++ " -> " ++ k
    let redisValue := (alookup redis redisKey).getD ""
    let c2 := if redisValue = Written then (node.attributes.remoteHash, true) else c1
    let c3 := if redisValue = Deleted then ("", false) else c2
    let redis' := if redisValue ≠ "" then aerase redis redisKey else redis
    let vj : String × Bool :=
      if c3.2 = false ∧ node.attributes.localHash ≠ "" then ("?", true)
      else (c3.1, false)
    (⟨node.id, node.name, node.path, node.action,
      { node.attributes with localHash := vj.1 }⟩, vj.2, redis')
  else (node, false, redis)

/-- The comparator loop over the merged tree: collects the annotated nodes
`res`, the rehash set `jobNodes`, and the marker table. -/
def localRehashLoop (persistentId : String)
    (knownHashes : List (String × calculatedHashes)) :
    List (String × Node) → List (String × String) →
    List (String × Node) × List (String × Node) × List (String × String)
  | [], redis => ([], [], redis)
  | (k, node) :: rest, redis =>
      let step := localRehashNode persistentId k node knownHashes redis
      let tailRes := localRehashLoop persistentId knownHashes rest step.2.2
      ((k, step.1) :: tailRes.1,
        (if step.2.1 then (k, node) :: tailRes.2.1 else tailRes.2.1),
        tailRes.2.2)

/-- The `localRehashToMatchRemoteHashType` without the `AddJob` side effect
(when `addJobs` is set and `jobNodes` is non-empty the caller enqueues a
`hash-only` job holding exactly `jobNodes`): the annotated tree, the rehash
set, the marker table, and `someCacheMisses = (len(jobNodes) > 0)`. -/
def localRehashToMatchRemoteHashType (persistentId : String)
    (nodes : List (String × Node))
    (knownHashes : List (String × calculatedHashes))
    (redis : List (String × String)) :
    (List (String × Node) × List (String × Node) × List (String × String)) × Bool :=
  let r := localRehashLoop persistentId knownHashes nodes redis
  (r, 0 < r.2.1.length)

/-! Section: C9: the rehash step's cache policy -/

/-- C9 (counterexample): A cache entry whose local hash matches the
dataset checksum but which lacks the requested remote kind: the code keeps
the other cached remote hashes (here `sha1 ↦ X`) and only adds the new
kind, while the claim's `otherwise` branch says the entry's `remoteHashes`
are discarded and rebuilt (which would leave only `gitHash ↦ H`). -/
theorem C9_calculateHash_counterexample :
    calculateHash (Except.ok "H")
        ⟨"f.txt", "f.txt", "", Action.update,
          ⟨"", ⟨"", ⟨3, "f.txt", 5, "file://z", ⟨"md5", "v"⟩⟩⟩, true, "r", "gitHash", "v"⟩⟩
        [("f.txt", ⟨"md5", "v", [("sha1", "X")]⟩)] =
      Except.ok ([("f.txt", ⟨"md5", "v", [("sha1", "X"), ("gitHash", "H")]⟩)], true) ∧
    calculateHash (Except.ok "H")
        ⟨"f.txt", "f.txt", "", Action.update,
          ⟨"", ⟨"", ⟨3, "f.txt", 5, "file://z", ⟨"md5", "v"⟩⟩⟩, true, "r", "gitHash", "v"⟩⟩
        [("f.txt", ⟨"md5", "v", [("sha1", "X")]⟩)] ≠
      Except.ok ([("f.txt", ⟨"md5", "v", [("gitHash", "H")]⟩)], true) := by
  refine ⟨rfl, ?_⟩
  intro h
  rw [show calculateHash (Except.ok "H")
      (⟨"f.txt", "f.txt", "", Action.update,
        ⟨"", ⟨"", ⟨3, "f.txt", 5, "file://z", ⟨"md5", "v"⟩⟩⟩, true, "r", "gitHash", "v"⟩⟩ : Node)
      [("f.txt", ⟨"md5", "v", [("sha1", "X")]⟩)] =
      Except.ok ([("f.txt", ⟨"md5", "v", [("sha1", "X"), ("gitHash", "H")]⟩)], true)
    from rfl] at h
  have h1 := Except.ok.inj h
  simp at h1

/-- C9 (amended): The rehash step's cache policy as the code implements
it: (i) if the cached entry's local hash kind and value equal the dataset's
stored checksum and the entry already holds the requested remote kind, the
cache is unchanged and the bytes are not re-read; (ii) if the local hash
matches but the requested kind is missing, the entry keeps its local hash
and its other remote hashes and the recomputed kind is added (bytes
re-read); (iii) if the local hash differs or the entry is absent, the entry
is rebuilt with the dataset's checksum as local hash and exactly the
recomputed kind (bytes re-read). -/
theorem C9_calculateHash_policy (doHashRes : Except String String) (node : Node)
    (kh : List (String × calculatedHashes)) :
    (∀ known w, alookup kh node.id = some known →
        known.LocalHashType = node.attributes.metadata.dataFile.checksum.type →
        known.LocalHashValue = node.attributes.metadata.dataFile.checksum.value →
        alookup known.RemoteHashes node.attributes.remoteHashType = some w →
        calculateHash doHashRes node kh = Except.ok (kh, false)) ∧
    (∀ known h, alookup kh node.id = some known →
        known.LocalHashType = node.attributes.metadata.dataFile.checksum.type →
        known.LocalHashValue = node.attributes.metadata.dataFile.checksum.value →
        alookup known.RemoteHashes node.attributes.remoteHashType = none →
        doHashRes = Except.ok h →
        calculateHash doHashRes node kh =
          Except.ok (ainsert kh node.id
            { known with
              RemoteHashes := ainsert known.RemoteHashes
                node.attributes.remoteHashType h }, true)) ∧
    (∀ h, (alookup kh node.id = none ∨
          (∃ known, alookup kh node.id = some known ∧
            (known.LocalHashType ≠ node.attributes.metadata.dataFile.checksum.type ∨
             known.LocalHashValue ≠ node.attributes.metadata.dataFile.checksum.value))) →
        doHashRes = Except.ok h →
        calculateHash doHashRes node kh =
          Except.ok (ainsert kh node.id
            ⟨node.attributes.metadata.dataFile.checksum.type,
              node.attributes.metadata.dataFile.checksum.value,
              [(node.attributes.remoteHashType, h)]⟩, true)) := by
  refine ⟨?_, ?_, ?_⟩
  · intro known w hk ht hv hw
    unfold calculateHash
    rw [hk]
    simp only
    rw [if_pos ⟨ht, hv⟩, hw]
  · intro known h hk ht hv hw hres
    unfold calculateHash
    rw [hk]
    simp only
    rw [if_pos ⟨ht, hv⟩, hw, hres]
  · intro h hcase hres
    unfold calculateHash
    rcases hcase with hnone | ⟨known, hk, hmis⟩
    · rw [hnone, hres]
      simp [ainsert]
    · rw [hk, hres]
      simp only
      rw [if_neg (by
        intro hand
        rcases hmis with hm | hm
        · exact hm hand.1
        · exact hm hand.2)]
      simp [ainsert]

/-- Witness for C9 (amended) at concrete inputs exercising all three
branches. -/
theorem C9_calculateHash_policy_witness :
    (let node : Node := ⟨"f.txt", "f.txt", "", Action.update,
        ⟨"", ⟨"", ⟨3, "f.txt", 5, "file://z", ⟨"md5", "v"⟩⟩⟩, true, "r", "sha1", "v"⟩⟩
     calculateHash (Except.error "never read") node
        [("f.txt", ⟨"md5", "v", [("sha1", "X")]⟩)] =
       Except.ok ([("f.txt", ⟨"md5", "v", [("sha1", "X")]⟩)], false)) ∧
    (let node : Node := ⟨"f.txt", "f.txt", "", Action.update,
        ⟨"", ⟨"", ⟨3, "f.txt", 5, "file://z", ⟨"md5", "v"⟩⟩⟩, true, "r", "gitHash", "v"⟩⟩
     calculateHash (Except.ok "H") node [("f.txt", ⟨"md5", "v", [("sha1", "X")]⟩)] =
       Except.ok (ainsert [("f.txt", ⟨"md5", "v", [("sha1", "X")]⟩)] "f.txt"
         ⟨"md5", "v", ainsert [("sha1", "X")] "gitHash" "H"⟩, true)) ∧
    (let node : Node := ⟨"f.txt", "f.txt", "", Action.update,
        ⟨"", ⟨"", ⟨3, "f.txt", 5, "file://z", ⟨"md5", "w"⟩⟩⟩, true, "r", "gitHash", "v"⟩⟩
     calculateHash (Except.ok "H") node [("f.txt", ⟨"md5", "v", [("sha1", "X")]⟩)] =
       Except.ok (ainsert [("f.txt", ⟨"md5", "v", [("sha1", "X")]⟩)] "f.txt"
         ⟨"md5", "w", [("gitHash", "H")]⟩, true)) := by
  refine ⟨?_, ?_, ?_⟩
  · exact (C9_calculateHash_policy _ _ _).1 ⟨"md5", "v", [("sha1", "X")]⟩ "X"
      rfl rfl rfl rfl
  · exact (C9_calculateHash_policy _ _ _).2.1 ⟨"md5", "v", [("sha1", "X")]⟩ "H"
      rfl rfl rfl rfl rfl
  · exact (C9_calculateHash_policy _ _ _).2.2 "H"
      (Or.inr ⟨⟨"md5", "v", [("sha1", "X")]⟩, rfl, Or.inr (by decide)⟩) rfl

/-! Section: C6: the comparator's hash priority -/

/-- C6 (counterexample): A source-only node (present only in the source
repository: empty dataset-side local hash) with a cache miss: the claim
says a cache miss marks the node for rehash with local hash `"?"`, but the
code requires a non-empty dataset-side local hash for that (there is
nothing stored to rehash), so the node's local hash stays empty and it is
not added to the rehash set. -/
theorem C6_localRehash_counterexample :
    (localRehashNode "doi:10/X" "new.txt"
        ⟨"new.txt", "new.txt", "", Action.new,
          ⟨"", ⟨"", ⟨0, "new.txt", 5, "", ⟨"", ""⟩⟩⟩, true, "abc", "sha1", ""⟩⟩
        [] []).1.attributes.localHash ≠ "?" ∧
    (localRehashNode "doi:10/X" "new.txt"
        ⟨"new.txt", "new.txt", "", Action.new,
          ⟨"", ⟨"", ⟨0, "new.txt", 5, "", ⟨"", ""⟩⟩⟩, true, "abc", "sha1", ""⟩⟩
        [] []).2.1 = false := by
  constructor
  · decide
  · rfl

/-- C6 (amended): For every node with a non-empty `remoteHashKind` the
comparator determines the authoritative local hash with this priority: a
`written` marker makes it use the node's `remoteHashValue` (marker
deleted); a `deleted` marker makes it treat the hash as absent (marker
deleted), which on a node with a dataset-side local hash leads to a rehash
mark `"?"`; otherwise, if the node has a non-empty dataset-side local hash
and the dataset checksum kind equals `remoteHashKind`, that local hash
(the dataset's checksum value) is used directly; otherwise the cached
`remoteHashes[remoteHashKind]` is used; on a cache miss the node is marked
for rehash with `"?"` if it has a non-empty dataset-side local hash, and
is left with an empty hash (no rehash possible) if not. -/
theorem C6_authoritative_hash_cascade (persistentId k : String) (node : Node)
    (kh : List (String × calculatedHashes)) (redis : List (String × String))
    (hrht : node.attributes.remoteHashType ≠ "") :
    ((alookup redis (persistentId ++ " -> " ++ k)).getD "" = Written →
      (localRehashNode persistentId k node kh redis).1.attributes.localHash =
          node.attributes.remoteHash ∧
      (localRehashNode persistentId k node kh redis).2.1 = false ∧
      (localRehashNode persistentId k node kh redis).2.2 =
        aerase redis (persistentId ++ " -> " ++ k)) ∧
    ((alookup redis (persistentId ++ " -> " ++ k)).getD "" = Deleted →
      (localRehashNode persistentId k node kh redis).2.2 =
        aerase redis (persistentId ++ " -> " ++ k) ∧
      (node.attributes.localHash ≠ "" →
        (localRehashNode persistentId k node kh redis).1.attributes.localHash = "?" ∧
        (localRehashNode persistentId k node kh redis).2.1 = true) ∧
      (node.attributes.localHash = "" →
        (localRehashNode persistentId k node kh redis).1.attributes.localHash = "" ∧
        (localRehashNode persistentId k node kh redis).2.1 = false)) ∧
    ((alookup redis (persistentId ++ " -> " ++ k)).getD "" ≠ Written →
      (alookup redis (persistentId ++ " -> " ++ k)).getD "" ≠ Deleted →
      ((node.attributes.localHash ≠ "" ∧
          node.attributes.remoteHashType =
            node.attributes.metadata.dataFile.checksum.type →
        (localRehashNode persistentId k node kh redis).1.attributes.localHash =
            node.attributes.localHash ∧
        (localRehashNode persistentId k node kh redis).2.1 = false) ∧
      (¬ (node.attributes.localHash ≠ "" ∧
          node.attributes.remoteHashType =
            node.attributes.metadata.dataFile.checksum.type) →
        (∀ v, (alookup kh node.id).bind
            (fun ch => alookup ch.RemoteHashes node.attributes.remoteHashType) =
              some v →
          (localRehashNode persistentId k node kh redis).1.attributes.localHash = v ∧
          (localRehashNode persistentId k node kh redis).2.1 = false) ∧
        ((alookup kh node.id).bind
            (fun ch => alookup ch.RemoteHashes node.attributes.remoteHashType) =
              none →
          (node.attributes.localHash ≠ "" →
            (localRehashNode persistentId k node kh redis).1.attributes.localHash = "?" ∧
            (localRehashNode persistentId k node kh redis).2.1 = true) ∧
          (node.attributes.localHash = "" →
            (localRehashNode persistentId k node kh redis).1.attributes.localHash = "" ∧
            (localRehashNode persistentId k node kh redis).2.1 = false))))) := by
  refine ⟨?_, ?_, ?_⟩
  · intro hmv
    unfold localRehashNode
    rw [if_pos hrht]
    simp only [hmv]
    have hwd : Written ≠ Deleted := by decide
    have hwe : Written ≠ "" := by decide
    simp [hwd, hwe]
  · intro hmv
    unfold localRehashNode
    rw [if_pos hrht]
    simp only [hmv]
    have hde : Deleted ≠ "" := by decide
    have hdw : ¬ (Deleted = Written) := by decide
    refine ⟨by simp [hde, hdw], ?_, ?_⟩
    · intro hl
      simp [hde, hdw, hl]
    · intro hl
      simp [hde, hdw, hl]
  · intro hmw hmd
    constructor
    · intro hcs
      unfold localRehashNode
      rw [if_pos hrht]
      simp [hmw, hmd, hcs.1, hcs.2, if_pos hcs]
    · intro hcs
      constructor
      · intro v hv
        unfold localRehashNode
        rw [if_pos hrht]
        simp [hmw, hmd, hcs, hv]
      · intro hv
        constructor
        · intro hl
          have hb : node.attributes.remoteHashType ≠
              node.attributes.metadata.dataFile.checksum.type :=
            fun hh => hcs ⟨hl, hh⟩
          unfold localRehashNode
          rw [if_pos hrht]
          simp [hmw, hmd, hv, hl, hb]
        · intro hl
          unfold localRehashNode
          rw [if_pos hrht]
          simp [hmw, hmd, hcs, hv, hl]

/-- Witness for C6 (amended): a `written` marker, a `deleted` marker, the
checksum-kind shortcut, a cache hit, and a cache miss, at concrete
inputs. -/
theorem C6_authoritative_hash_cascade_witness :
    ((localRehashNode "doi:10/X" "a.txt"
        ⟨"a.txt", "a.txt", "", Action.equal,
          ⟨"", ⟨"", ⟨1, "a.txt", 5, "", ⟨"md5", "lv"⟩⟩⟩, true, "rv", "sha1", "lv"⟩⟩
        [] [("doi:10/X -> a.txt", "written")]).1.attributes.localHash = "rv" ∧
      (localRehashNode "doi:10/X" "a.txt"
        ⟨"a.txt", "a.txt", "", Action.equal,
          ⟨"", ⟨"", ⟨1, "a.txt", 5, "", ⟨"md5", "lv"⟩⟩⟩, true, "rv", "sha1", "lv"⟩⟩
        [] [("doi:10/X -> a.txt", "written")]).2.1 = false ∧
      (localRehashNode "doi:10/X" "a.txt"
        ⟨"a.txt", "a.txt", "", Action.equal,
          ⟨"", ⟨"", ⟨1, "a.txt", 5, "", ⟨"md5", "lv"⟩⟩⟩, true, "rv", "sha1", "lv"⟩⟩
        [] [("doi:10/X -> a.txt", "written")]).2.2 =
        aerase [("doi:10/X -> a.txt", "written")] "doi:10/X -> a.txt") ∧
    ((localRehashNode "doi:10/X" "b.txt"
        ⟨"b.txt", "b.txt", "", Action.equal,
          ⟨"", ⟨"", ⟨2, "b.txt", 5, "", ⟨"sha1", "lv"⟩⟩⟩, true, "rv", "sha1", "lv"⟩⟩
        [] []).1.attributes.localHash = "lv" ∧
      (localRehashNode "doi:10/X" "b.txt"
        ⟨"b.txt", "b.txt", "", Action.equal,
          ⟨"", ⟨"", ⟨2, "b.txt", 5, "", ⟨"sha1", "lv"⟩⟩⟩, true, "rv", "sha1", "lv"⟩⟩
        [] []).2.1 = false) ∧
    ((localRehashNode "doi:10/X" "c.txt"
        ⟨"c.txt", "c.txt", "", Action.equal,
          ⟨"", ⟨"", ⟨3, "c.txt", 5, "", ⟨"md5", "lv"⟩⟩⟩, true, "rv", "sha1", "lv"⟩⟩
        [("c.txt", ⟨"md5", "lv", [("sha1", "cached")]⟩)] []).1.attributes.localHash =
        "cached" ∧
      (localRehashNode "doi:10/X" "d.txt"
        ⟨"d.txt", "d.txt", "", Action.equal,
          ⟨"", ⟨"", ⟨4, "d.txt", 5, "", ⟨"md5", "lv"⟩⟩⟩, true, "rv", "sha1", "lv"⟩⟩
        [] []).1.attributes.localHash = "?" ∧
      (localRehashNode "doi:10/X" "d.txt"
        ⟨"d.txt", "d.txt", "", Action.equal,
          ⟨"", ⟨"", ⟨4, "d.txt", 5, "", ⟨"md5", "lv"⟩⟩⟩, true, "rv", "sha1", "lv"⟩⟩
        [] []).2.1 = true) := by
  have ha := C6_authoritative_hash_cascade "doi:10/X" "a.txt"
    ⟨"a.txt", "a.txt", "", Action.equal,
      ⟨"", ⟨"", ⟨1, "a.txt", 5, "", ⟨"md5", "lv"⟩⟩⟩, true, "rv", "sha1", "lv"⟩⟩
    [] [("doi:10/X -> a.txt", "written")] (by decide)
  have hb := C6_authoritative_hash_cascade "doi:10/X" "b.txt"
    ⟨"b.txt", "b.txt", "", Action.equal,
      ⟨"", ⟨"", ⟨2, "b.txt", 5, "", ⟨"sha1", "lv"⟩⟩⟩, true, "rv", "sha1", "lv"⟩⟩
    [] [] (by decide)
  have hc := C6_authoritative_hash_cascade "doi:10/X" "c.txt"
    ⟨"c.txt", "c.txt", "", Action.equal,
      ⟨"", ⟨"", ⟨3, "c.txt", 5, "", ⟨"md5", "lv"⟩⟩⟩, true, "rv", "sha1", "lv"⟩⟩
    [("c.txt", ⟨"md5", "lv", [("sha1", "cached")]⟩)] [] (by decide)
  have hd := C6_authoritative_hash_cascade "doi:10/X" "d.txt"
    ⟨"d.txt", "d.txt", "", Action.equal,
      ⟨"", ⟨"", ⟨4, "d.txt", 5, "", ⟨"md5", "lv"⟩⟩⟩, true, "rv", "sha1", "lv"⟩⟩
    [] [] (by decide)
  refine ⟨ha.1 (by decide), ?_, ?_, ?_⟩
  · have hbres := (hb.2.2 (by decide) (by decide)).1 (by decide)
    exact ⟨hbres.1, hbres.2⟩
  · exact (((hc.2.2 (by decide) (by decide)).2 (by decide)).1 "cached" (by decide)).1
  · have hdres := (((hd.2.2 (by decide) (by decide)).2 (by decide)).2
      (by decide)).1 (by decide)
    exact ⟨hdres.1, hdres.2⟩

end RdmIntegration
